import Mathlib

/-!
Verification development for the nano-osc library (inc/nano-osc.hpp,
src/nano-osc.cpp).  The byte-level codec and the server dispatch loop are
embedded shallowly:

* a byte buffer is a `List Nat` (encoders only emit values < 256);
* machine integers are `Nat`/`Int` with explicit reductions mod `2^32` /
  `2^64` where the source casts;
* IEEE floats are carried as their raw bit patterns (the source only moves
  the patterns with `memcpy`, so encode/decode act on the bits alone);
* a C++ `throw` or other failure is an `Except` error.  A read that the
  source performs with no bounds check and that would fall outside the
  `(data, size)` buffer handed to the decoder is modelled as the
  distinguished error `DecodeErr.oob`: the C++ behaviour at such a point is
  undefined (it dereferences past the caller's buffer).
-/

namespace NanoOsc

/-- `detail::align4`: `(4 - (n & 3)) & 3`, the pad byte count for a field of
length `n`. -/
def align4 (n : Nat) : Nat := (4 - n % 4) % 4

/-- `detail::add_osc_u32`: big-endian bytes of `v` truncated to 32 bits. -/
def add_osc_u32 (v : Nat) : List Nat :=
  [v % 4294967296 / 16777216, v / 65536 % 256, v / 256 % 256, v % 256]

/-- `detail::add_osc_u64`: big-endian bytes of `v` truncated to 64 bits. -/
def add_osc_u64 (v : Nat) : List Nat :=
  [v % 18446744073709551616 / 72057594037927936, v / 281474976710656 % 256,
   v / 1099511627776 % 256, v / 4294967296 % 256,
   v / 16777216 % 256, v / 65536 % 256, v / 256 % 256, v % 256]

/-- `detail::add_osc_string`: the raw bytes, one NUL, then `align4 (len+1)`
zero pad bytes. -/
def add_osc_string (s : List Nat) : List Nat :=
  s ++ [0] ++ List.replicate (align4 (s.length + 1)) 0

/-- `detail::add_osc_blob`: 4-byte big-endian length, payload, then
`align4 len` zero pad bytes. -/
def add_osc_blob (b : List Nat) : List Nat :=
  add_osc_u32 b.length ++ b ++ List.replicate (align4 b.length) 0

/-- The seven members of the `OSCValue` variant.  Floats are held as their
bit patterns (the source never interprets them numerically). -/
inductive OSCValue where
  | int32 (v : Int)
  | int64 (v : Int)
  | float32 (bits : Nat)
  | float64 (bits : Nat)
  | str (s : List Nat)
  | blob (b : List Nat)
  | timetag (t : Nat)
deriving DecidableEq, Repr

/-- The `std::visit` body of `Message::encode`: bytes emitted for one
argument. -/
def encodeValue : OSCValue → List Nat
  | .int32 v => add_osc_u32 (v % 4294967296).toNat
  | .int64 v => add_osc_u64 (v % 18446744073709551616).toNat
  | .float32 bits => add_osc_u32 bits
  | .float64 bits => add_osc_u64 bits
  | .str s => add_osc_string s
  | .blob b => add_osc_blob b
  | .timetag t => add_osc_u64 t

/-- `NanoOsc::Message`: address, tag string and argument list, with strings
as byte lists. -/
structure Message where
  address : List Nat
  tags : List Nat
  arguments : List OSCValue
deriving DecidableEq, Repr

/-- `Message::encode`: address string, tag string, then every argument in
order (the imperative buffer appends become concatenation). -/
def Message.encode (m : Message) : List Nat :=
  add_osc_string m.address ++ add_osc_string m.tags ++
    (m.arguments.map encodeValue).flatten

/-- Decoder failure modes.  `malformed` is a `std::runtime_error` thrown by
the source; `oob` marks a read the source performs without a bounds check
that falls outside the buffer (undefined behaviour in the C++); `fuelOut`
is the recursion fuel artifact of the bundle decoder (unreachable from the
top-level entry point, which supplies more fuel than any input can use). -/
inductive DecodeErr where
  | malformed
  | oob
  | fuelOut
deriving DecidableEq, Repr

/-- `detail::read_u32_be` on bytes that are known to be in range (callers
guard or are modelled with an explicit `oob` branch). -/
def read_u32_be (data : List Nat) (offset : Nat) : Nat :=
  data.getD offset 0 % 256 * 16777216 + data.getD (offset+1) 0 % 256 * 65536 +
  data.getD (offset+2) 0 % 256 * 256 + data.getD (offset+3) 0 % 256

/-- `detail::read_u64_be`, same conventions as `read_u32_be`. -/
def read_u64_be (data : List Nat) (offset : Nat) : Nat :=
  read_u32_be data offset * 4294967296 + read_u32_be data (offset + 4)

/-- Reading a `uint32_t` back as `int32_t` (the `static_cast` in
`read_osc_int32`). -/
def toI32 (w : Nat) : Int :=
  if w < 2147483648 then (w : Int) else (w : Int) - 4294967296

/-- Reading a `uint64_t` back as `int64_t` (the `static_cast` in
`read_osc_int64`). -/
def toI64 (w : Nat) : Int :=
  if w < 9223372036854775808 then (w : Int) else (w : Int) - 18446744073709551616

/-- `detail::read_osc_int32`: the source reads 4 bytes with no bounds
check; a read past `size` is the `oob` outcome. -/
def read_osc_int32 (data : List Nat) (offset : Nat) : Except DecodeErr (Int × Nat) :=
  if offset + 4 ≤ data.length then .ok (toI32 (read_u32_be data offset), offset + 4)
  else .error .oob

/-- `detail::read_osc_int64`: 8 unchecked bytes. -/
def read_osc_int64 (data : List Nat) (offset : Nat) : Except DecodeErr (Int × Nat) :=
  if offset + 8 ≤ data.length then .ok (toI64 (read_u64_be data offset), offset + 8)
  else .error .oob

/-- `detail::read_osc_float32`: 4 unchecked bytes, returned as the bit
pattern. -/
def read_osc_float32 (data : List Nat) (offset : Nat) : Except DecodeErr (Nat × Nat) :=
  if offset + 4 ≤ data.length then .ok (read_u32_be data offset, offset + 4)
  else .error .oob

/-- `detail::read_osc_float64`: 8 unchecked bytes.  The source stores the
64-bit read into a `uint32_t` named `bits` (truncating it) and then
`memcpy`s 8 bytes out of that 4-byte object; the upper garbage bytes are
modelled as zero, so the resulting bit pattern is the read value mod
`2^32`. -/
def read_osc_float64 (data : List Nat) (offset : Nat) : Except DecodeErr (Nat × Nat) :=
  if offset + 8 ≤ data.length then .ok (read_u64_be data offset % 4294967296, offset + 8)
  else .error .oob

/-- `detail::read_osc_timetag`: 8 unchecked bytes. -/
def read_osc_timetag (data : List Nat) (offset : Nat) : Except DecodeErr (Nat × Nat) :=
  if offset + 8 ≤ data.length then .ok (read_u64_be data offset, offset + 8)
  else .error .oob

/-- The scan loop of `read_osc_string`:
`while (offset < size && data[offset] != 0) ++offset`.  Returns the index
of the first NUL at or after `offset`, or `none` when the scan hits the end
of the buffer first.  `fuel` is supplied as `data.length + 1` so it never
runs out before the loop guard fails. -/
def findNul (data : List Nat) : Nat → Nat → Option Nat
  | 0, _ => none
  | fuel + 1, offset =>
    match data.get? offset with
    | none => none
    | some 0 => some offset
    | some _ => findNul data fuel (offset + 1)

/-- `detail::read_osc_string`: scan for NUL (failing with the
"OSC String is not terminated" error when none is found before the buffer
end), take the bytes before it, and round the cursor with
`(offset + 4) & ~0x3`. -/
def read_osc_string (data : List Nat) (offset : Nat) : Except DecodeErr (List Nat × Nat) :=
  match findNul data (data.length + 1) offset with
  | none => .error .malformed
  | some k => .ok ((data.drop offset).take (k - offset), k + 4 - (k + 4) % 4)

/-- `detail::read_osc_blob`: returns the source's success flag, the output
vector (left empty on failure, exactly as the C++ out-parameter is), and
the final cursor.  On the second failure path the cursor has already moved
past the length word. -/
def read_osc_blob (data : List Nat) (offset : Nat) : Bool × List Nat × Nat :=
  if offset + 4 > data.length then (false, [], offset)
  else
    let len := read_u32_be data offset
    let o := offset + 4
    if o + len > data.length then (false, [], o)
    else (true, (data.drop o).take len, o + len + 4 - (o + len + 4) % 4)

/-- Value-carrying type tags: each appends exactly one argument in
`Message::decode` ('i','f','s','S','b','t','d'); every other character
appends none. -/
def isValueTag (t : Nat) : Bool :=
  decide (t = 105 ∨ t = 102 ∨ t = 115 ∨ t = 83 ∨ t = 98 ∨ t = 116 ∨ t = 100)

/-- One arm of the `switch (tag)` in `Message::decode`: possibly a decoded
value, plus the new cursor.  'h' reads an int64 and discards it; 'c', 'r'
and 'm' advance 4 bytes without reading; unknown tags (and the leading
comma) fall to the default arm, which does nothing. -/
def argStep (data : List Nat) (t : Nat) (offset : Nat) :
    Except DecodeErr (Option OSCValue × Nat) :=
  if t = 105 then
    match read_osc_int32 data offset with
    | .error e => .error e
    | .ok (v, o) => .ok (some (.int32 v), o)
  else if t = 102 then
    match read_osc_float32 data offset with
    | .error e => .error e
    | .ok (bits, o) => .ok (some (.float32 bits), o)
  else if t = 115 ∨ t = 83 then
    match read_osc_string data offset with
    | .error e => .error e
    | .ok (s, o) => .ok (some (.str s), o)
  else if t = 98 then
    match read_osc_blob data offset with
    | (_, b, o) => .ok (some (.blob b), o)
  else if t = 104 then
    match read_osc_int64 data offset with
    | .error e => .error e
    | .ok (_, o) => .ok (none, o)
  else if t = 116 then
    match read_osc_timetag data offset with
    | .error e => .error e
    | .ok (tt, o) => .ok (some (.timetag tt), o)
  else if t = 100 then
    match read_osc_float64 data offset with
    | .error e => .error e
    | .ok (bits, o) => .ok (some (.float64 bits), o)
  else if t = 99 ∨ t = 114 ∨ t = 109 then
    .ok (none, offset + 4)
  else
    .ok (none, offset)

/-- The `for (char& tag : tagstr)` loop of `Message::decode`. -/
def decodeArgs (data : List Nat) : List Nat → Nat → Except DecodeErr (List OSCValue × Nat)
  | [], offset => .ok ([], offset)
  | t :: rest, offset =>
    match argStep data t offset with
    | .error e => .error e
    | .ok (v?, o) =>
      match decodeArgs data rest o with
      | .error e => .error e
      | .ok (args, oE) => .ok (v?.toList ++ args, oE)

/-- `Message::decode`: address string, tag string, then the tag loop. -/
def Message.decode (data : List Nat) : Except DecodeErr Message :=
  match read_osc_string data 0 with
  | .error e => .error e
  | .ok (addr, o1) =>
    match read_osc_string data o1 with
    | .error e => .error e
    | .ok (tagstr, o2) =>
      match decodeArgs data tagstr o2 with
      | .error e => .error e
      | .ok (args, _) => .ok ⟨addr, tagstr, args⟩

/-- `NanoOsc::Bundle`: time-tag, message list, nested bundle list. -/
inductive Bundle where
  | mk (timetag : Nat) (messages : List Message) (bundles : List Bundle)

/-- Field accessor mirroring `Bundle::timetag`. -/
def Bundle.timetag : Bundle → Nat
  | .mk t _ _ => t

/-- Field accessor mirroring `Bundle::messages`. -/
def Bundle.messages : Bundle → List Message
  | .mk _ m _ => m

/-- Field accessor mirroring `Bundle::bundles`. -/
def Bundle.bundles : Bundle → List Bundle
  | .mk _ _ b => b

/-- `BUNDLE_ID`: the ASCII bytes of `#bundle` followed by one NUL. -/
def markerBytes : List Nat := [35, 98, 117, 110, 100, 108, 101, 0]

/-- One length-prefixed element of a bundle body: `add_osc_u32(len)`
followed by the element's bytes. -/
def encElem (bytes : List Nat) : List Nat := add_osc_u32 bytes.length ++ bytes

mutual
/-- `Bundle::encode`: the 7-byte marker emitted through `add_osc_string`
(8 bytes total), then every message as a length-prefixed element, then
every nested bundle likewise.  Note the source emits no time-tag here. -/
def Bundle.encode : Bundle → List Nat
  | .mk _ msgs bs =>
    add_osc_string [35, 98, 117, 110, 100, 108, 101] ++
      (msgs.map fun m => encElem m.encode).flatten ++ encodeBundles bs

/-- The nested-bundle loop of `Bundle::encode`. -/
def encodeBundles : List Bundle → List Nat
  | [] => []
  | b :: rest => encElem b.encode ++ encodeBundles rest
end

/-- `detail::is_bundle` applied at `data + offset`: compare 8 bytes against
`BUNDLE_ID`.  When fewer than 8 bytes remain the comparison cannot match
(the C++ `memcmp` would touch bytes past the buffer there). -/
def is_bundle (data : List Nat) (offset : Nat) : Bool :=
  (data.drop offset).take 8 == markerBytes

mutual
/-- `Bundle::decode` body.  `fuel` only bounds the recursion; the top-level
entry point supplies more than any input can consume.  The source checks
the marker, reads the time-tag at offset 8 (unchecked: `oob` when the
buffer is shorter than 16 bytes), then runs the element loop from
offset 16. -/
def bundleDecodeF : Nat → List Nat → Except DecodeErr Bundle
  | 0, _ => .error .fuelOut
  | fuel + 1, data =>
    if is_bundle data 0 then
      match read_osc_timetag data 8 with
      | .error e => .error e
      | .ok (tt, o) =>
        match bundleLoopF fuel data o with
        | .error e => .error e
        | .ok (msgs, bs) => .ok (.mk tt msgs bs)
    else .error .malformed

/-- The `while (offset < size)` loop of `Bundle::decode`: read a length
word (unchecked in the source: `oob` when fewer than 4 bytes remain),
split off that many bytes, recurse for a nested bundle or decode a
message, and advance by the length. -/
def bundleLoopF : Nat → List Nat → Nat → Except DecodeErr (List Message × List Bundle)
  | 0, _, _ => .error .fuelOut
  | fuel + 1, data, offset =>
    if offset < data.length then
      if offset + 4 ≤ data.length then
        let len := read_u32_be data offset
        let o := offset + 4
        let sub := (data.drop o).take len
        if is_bundle data o then
          match bundleDecodeF fuel sub with
          | .error e => .error e
          | .ok b =>
            match bundleLoopF fuel data (o + len) with
            | .error e => .error e
            | .ok (msgs, bs) => .ok (msgs, b :: bs)
        else
          match Message.decode sub with
          | .error e => .error e
          | .ok m =>
            match bundleLoopF fuel data (o + len) with
            | .error e => .error e
            | .ok (msgs, bs) => .ok (m :: msgs, bs)
      else .error .oob
    else .ok ([], [])
end

/-- `Bundle::decode` entry point.  Every loop iteration advances the cursor
by at least 4 bytes and every nested decode strictly shrinks the buffer,
so `data.length + 2` units of fuel can never be exhausted. -/
def Bundle.decode (data : List Nat) : Except DecodeErr Bundle :=
  bundleDecodeF (data.length + 2) data

/-- A handler invocation recorded by the dispatch model (the
`std::function` calls in `OSCServer::process_one`). -/
inductive Dispatch where
  | msg (m : Message)
  | bund (b : Bundle)

/-- Whether a dispatch event is a message-handler invocation. -/
def Dispatch.isMsg : Dispatch → Bool
  | .msg _ => true
  | .bund _ => false

/-- Which handlers are registered on the server (`set_message_handler` /
`set_bundle_handler`). -/
structure ServerCfg where
  hasMsgHandler : Bool
  hasBundleHandler : Bool

/-- The body of `OSCServer::process_one` applied to one received datagram
under the simplification that the decoders see exactly the received
bytes: zero bytes received reports false; a leading bundle marker routes
to `Bundle::decode` and the bundle handler; anything else routes to
`Message::decode` and the message handler; any decode failure is caught
by the `try`/`catch` and reported as false with no handler invoked.
This per-datagram success/failure predicate coincides with the source
whenever decoding stays within the received bytes; for the
buffer-faithful model of a single dispatch — where reads past the
datagram hit the 65536-byte buffer's stale/zero bytes — see
`Srv.processOne` below.  The loop-structure theorem for `process_all`
only depends on `process_one` being repeated until it reports false. -/
def dispatchOne (cfg : ServerCfg) (d : List Nat) : Bool × List Dispatch :=
  if d.length = 0 then (false, [])
  else if is_bundle d 0 then
    match Bundle.decode d with
    | .ok b => (true, if cfg.hasBundleHandler then [.bund b] else [])
    | .error _ => (false, [])
  else
    match Message.decode d with
    | .ok m => (true, if cfg.hasMsgHandler then [.msg m] else [])
    | .error _ => (false, [])

/-- `OSCServer::process_one` over a queue of pending datagrams: the
transport's `receive` pops the next datagram (or yields zero bytes on an
empty queue). -/
def process_one (cfg : ServerCfg) : List (List Nat) → Bool × List (List Nat) × List Dispatch
  | [] => (false, [], [])
  | d :: rest => ((dispatchOne cfg d).1, rest, (dispatchOne cfg d).2)

/-- `OSCServer::process_all`: `while (process_one()) count++`.  Returns the
count, the datagrams still pending when the loop stopped, and the recorded
handler invocations. -/
def process_all (cfg : ServerCfg) : List (List Nat) → Nat × List (List Nat) × List Dispatch
  | [] => (0, [], [])
  | d :: rest =>
    if (dispatchOne cfg d).1 then
      ((process_all cfg rest).1 + 1, (process_all cfg rest).2.1,
        (dispatchOne cfg d).2 ++ (process_all cfg rest).2.2)
    else (0, rest, (dispatchOne cfg d).2)

/-- Whether one datagram dispatches successfully (the boolean
`process_one` reports for it); independent of which handlers are
registered. -/
def dispatchOk (d : List Nat) : Bool :=
  (dispatchOne ⟨false, false⟩ d).1

/-- `BUFFER_MAX_SIZE`: the size of the server's receive buffer. -/
def BUFFER_MAX_SIZE : Nat := 65536

namespace Srv

/-!
The buffer-faithful server model.  `OSCServer::process_one` does not hand
the decoders a tight buffer: it calls `Bundle::decode(m_buffer.data(),
received)` / `Message::decode(m_buffer.data(), received)` where `m_buffer`
is the server's 65536-byte zero-initialized vector.  Reads past `received`
that stay inside the allocation are therefore defined reads of the
buffer's stale/zero bytes and can let a truncated datagram decode
"successfully" into garbage; only a read past the allocation itself is
out of range (`oob`, undefined behaviour, which the `catch` block does
not intercept).  The functions here mirror the same source lines as the
tight-buffer family above but carry the declared `size` separately from
the backing store `data`, exactly like the C++ signatures.  The fixed-size
readers (`read_osc_int32` and peers) take no size in the source either,
so the top-level versions are reused unchanged: their only bound is the
allocation.
-/

/-- The scan loop of `read_osc_string` over a backing store longer than
`size`: the guard `offset < size` is checked before each access, and an
access inside `size` but beyond the allocation is an out-of-range read. -/
def findNul (data : List Nat) (size : Nat) : Nat → Nat → Except DecodeErr (Option Nat)
  | 0, _ => .error .fuelOut
  | fuel + 1, offset =>
    if offset < size then
      match data.get? offset with
      | none => .error .oob
      | some 0 => .ok (some offset)
      | some _ => findNul data size fuel (offset + 1)
    else .ok none

/-- `detail::read_osc_string` with the declared `size` decoupled from the
backing store. -/
def read_osc_string (data : List Nat) (size offset : Nat) :
    Except DecodeErr (List Nat × Nat) :=
  match findNul data size (size + 1) offset with
  | .error e => .error e
  | .ok none => .error .malformed
  | .ok (some k) => .ok ((data.drop offset).take (k - offset), k + 4 - (k + 4) % 4)

/-- `detail::read_osc_blob` with `size` decoupled from the backing store:
the source's two checks compare against `size`, and the actual reads are
in range only while they stay inside the allocation. -/
def read_osc_blob (data : List Nat) (size offset : Nat) :
    Except DecodeErr (Bool × List Nat × Nat) :=
  if offset + 4 > size then .ok (false, [], offset)
  else if offset + 4 ≤ data.length then
    let len := read_u32_be data offset
    let o := offset + 4
    if o + len > size then .ok (false, [], o)
    else if o + len ≤ data.length then
      .ok (true, (data.drop o).take len, o + len + 4 - (o + len + 4) % 4)
    else .error .oob
  else .error .oob

/-- One arm of the `switch (tag)` in `Message::decode`, buffer-faithful:
string and blob reads compare against `size`; the fixed-size reads are
unchecked against `size` exactly as in the source. -/
def argStep (data : List Nat) (size : Nat) (t : Nat) (offset : Nat) :
    Except DecodeErr (Option OSCValue × Nat) :=
  if t = 105 then
    match read_osc_int32 data offset with
    | .error e => .error e
    | .ok (v, o) => .ok (some (.int32 v), o)
  else if t = 102 then
    match read_osc_float32 data offset with
    | .error e => .error e
    | .ok (bits, o) => .ok (some (.float32 bits), o)
  else if t = 115 ∨ t = 83 then
    match Srv.read_osc_string data size offset with
    | .error e => .error e
    | .ok (s, o) => .ok (some (.str s), o)
  else if t = 98 then
    match Srv.read_osc_blob data size offset with
    | .error e => .error e
    | .ok (_, b, o) => .ok (some (.blob b), o)
  else if t = 104 then
    match read_osc_int64 data offset with
    | .error e => .error e
    | .ok (_, o) => .ok (none, o)
  else if t = 116 then
    match read_osc_timetag data offset with
    | .error e => .error e
    | .ok (tt, o) => .ok (some (.timetag tt), o)
  else if t = 100 then
    match read_osc_float64 data offset with
    | .error e => .error e
    | .ok (bits, o) => .ok (some (.float64 bits), o)
  else if t = 99 ∨ t = 114 ∨ t = 109 then
    .ok (none, offset + 4)
  else
    .ok (none, offset)

/-- The tag loop of `Message::decode`, buffer-faithful. -/
def decodeArgs (data : List Nat) (size : Nat) :
    List Nat → Nat → Except DecodeErr (List OSCValue × Nat)
  | [], offset => .ok ([], offset)
  | t :: rest, offset =>
    match Srv.argStep data size t offset with
    | .error e => .error e
    | .ok (v?, o) =>
      match Srv.decodeArgs data size rest o with
      | .error e => .error e
      | .ok (args, oE) => .ok (v?.toList ++ args, oE)

/-- `Message::decode(data, size)` over a backing store that may extend
past `size`. -/
def decodeMessage (data : List Nat) (size : Nat) : Except DecodeErr Message :=
  match Srv.read_osc_string data size 0 with
  | .error e => .error e
  | .ok (addr, o1) =>
    match Srv.read_osc_string data size o1 with
    | .error e => .error e
    | .ok (tagstr, o2) =>
      match Srv.decodeArgs data size tagstr o2 with
      | .error e => .error e
      | .ok (args, _) => .ok ⟨addr, tagstr, args⟩

mutual
/-- `Bundle::decode(data, size)`, buffer-faithful: the time-tag read at
offset 8 is unchecked against `size` (it can legally read stale/zero
buffer bytes past a short datagram), and the element loop runs while
`offset < size`. -/
def bundleDecodeAux : Nat → List Nat → Nat → Except DecodeErr Bundle
  | 0, _, _ => .error .fuelOut
  | fuel + 1, data, size =>
    if is_bundle data 0 then
      match read_osc_timetag data 8 with
      | .error e => .error e
      | .ok (tt, o) =>
        match bundleLoop fuel data size o with
        | .error e => .error e
        | .ok (msgs, bs) => .ok (.mk tt msgs bs)
    else .error .malformed

/-- The `while (offset < size)` loop of `Bundle::decode`, buffer-faithful:
the recursive element decode is handed the pointer `data + offset` — that
is, the whole rest of the allocation — with the wire length as its
declared size. -/
def bundleLoop : Nat → List Nat → Nat → Nat → Except DecodeErr (List Message × List Bundle)
  | 0, _, _, _ => .error .fuelOut
  | fuel + 1, data, size, offset =>
    if offset < size then
      if offset + 4 ≤ data.length then
        let len := read_u32_be data offset
        let o := offset + 4
        if is_bundle data o then
          match bundleDecodeAux fuel (data.drop o) len with
          | .error e => .error e
          | .ok b =>
            match bundleLoop fuel data size (o + len) with
            | .error e => .error e
            | .ok (msgs, bs) => .ok (msgs, b :: bs)
        else
          match Srv.decodeMessage (data.drop o) len with
          | .error e => .error e
          | .ok m =>
            match bundleLoop fuel data size (o + len) with
            | .error e => .error e
            | .ok (msgs, bs) => .ok (m :: msgs, bs)
      else .error .oob
    else .ok ([], [])
end

/-- `Bundle::decode` entry point for the server path.  Loop steps advance
the cursor by at least 4 bytes inside the allocation and nested elements
strictly shrink it, so `data.length + 2` units of fuel cannot run out. -/
def decodeBundle (data : List Nat) (size : Nat) : Except DecodeErr Bundle :=
  Srv.bundleDecodeAux (data.length + 2) data size

/-- `Transport::receive` into the server's buffer: the datagram overwrites
the front, the rest of the buffer keeps its previous (initially zero)
bytes. -/
def recv (buf d : List Nat) : List Nat := d ++ buf.drop d.length

/-- The server's `m_buffer` as constructed: `BUFFER_MAX_SIZE` bytes, zero
initialized. -/
def zeroBuffer : List Nat := List.replicate BUFFER_MAX_SIZE 0

/-- `OSCServer::process_one`, buffer-faithful: receive the datagram `d`
into `buf`, report false on zero bytes, classify by `is_bundle` on the
buffer, and decode from the buffer with `received` as the declared size.
A thrown decode failure (`malformed`) is caught by the `catch` block: no
handler runs and false is returned.  An `oob` outcome is a read past the
allocation — undefined behaviour the `catch` does not intercept — so it
propagates as an error of the model. -/
def processOne (cfg : ServerCfg) (buf d : List Nat) :
    Except DecodeErr (Bool × List Dispatch) :=
  let b := Srv.recv buf d
  if d.length = 0 then .ok (false, [])
  else if is_bundle b 0 then
    match Srv.decodeBundle b d.length with
    | .ok bundle => .ok (true, if cfg.hasBundleHandler then [.bund bundle] else [])
    | .error .malformed => .ok (false, [])
    | .error e => .error e
  else
    match Srv.decodeMessage b d.length with
    | .ok m => .ok (true, if cfg.hasMsgHandler then [.msg m] else [])
    | .error .malformed => .ok (false, [])
    | .error e => .error e

end Srv

theorem align4_add_mod (n : Nat) : (n + align4 n) % 4 = 0 := by
  unfold align4
  omega

theorem add_osc_string_length (s : List Nat) :
    (add_osc_string s).length = s.length + 1 + align4 (s.length + 1) := by
  simp [add_osc_string]
  omega

theorem add_osc_string_length_mod (s : List Nat) :
    (add_osc_string s).length % 4 = 0 := by
  rw [add_osc_string_length]
  have h := align4_add_mod (s.length + 1)
  omega

theorem encodeValue_length_mod (v : OSCValue) : (encodeValue v).length % 4 = 0 := by
  cases v with
  | int32 v => simp [encodeValue, add_osc_u32]
  | int64 v => simp [encodeValue, add_osc_u64]
  | float32 bits => simp [encodeValue, add_osc_u32]
  | float64 bits => simp [encodeValue, add_osc_u64]
  | str s => exact add_osc_string_length_mod s
  | blob b =>
    have h := align4_add_mod b.length
    simp [encodeValue, add_osc_blob, add_osc_u32]
    omega
  | timetag t => simp [encodeValue, add_osc_u64]

theorem encodeArgs_length_mod (l : List OSCValue) :
    ((l.map encodeValue).flatten).length % 4 = 0 := by
  induction l with
  | nil => rfl
  | cons v rest ih =>
    have h := encodeValue_length_mod v
    simp only [List.map_cons, List.flatten_cons, List.length_append]
    omega

/-- C10: every encoded message has length a multiple of 4, because the
address string, the tag string and every argument encoding individually
occupy a multiple of 4 bytes. -/
theorem c10_message_encode_length_multiple_of4 (m : Message) :
    (Message.encode m).length % 4 = 0 := by
  have h1 := add_osc_string_length_mod m.address
  have h2 := add_osc_string_length_mod m.tags
  have h3 := encodeArgs_length_mod m.arguments
  simp only [Message.encode, List.length_append]
  omega

theorem findNul_eq_none (data : List Nat) :
    ∀ fuel offset, (∀ i, i < data.length → offset ≤ i → data.get? i ≠ some 0) →
      findNul data fuel offset = none := by
  intro fuel
  induction fuel with
  | zero => intro o _; rfl
  | succ fuel ih =>
    intro o h
    unfold findNul
    cases hv : data.get? o with
    | none => rfl
    | some v =>
      have hlt : o < data.length := by
        by_contra hge
        rw [List.get?_eq_none.mpr (Nat.le_of_not_lt hge)] at hv
        cases hv
      cases v with
      | zero => exact absurd hv (h o hlt (Nat.le_refl o))
      | succ v => exact ih (o + 1) fun i h1 h2 => h i h1 (by omega)

theorem read_osc_string_not_oob (data : List Nat) (offset : Nat) :
    read_osc_string data offset ≠ .error .oob := by
  unfold read_osc_string
  cases findNul data (data.length + 1) offset <;> simp

/-- C9: when no NUL byte occurs between the start offset and the end of the
buffer, `read_osc_string` fails with the malformed-string error; and the
scan never performs a read at or past the buffer end (in this embedding an
unchecked past-end read surfaces as the distinct `oob` outcome, which
`read_osc_string` can never produce). -/
theorem c9_unterminated_string_fails (data : List Nat) (offset : Nat)
    (h : ∀ i, i < data.length → offset ≤ i → data.get? i ≠ some 0) :
    read_osc_string data offset = .error .malformed ∧
      read_osc_string data offset ≠ .error .oob := by
  refine ⟨?_, read_osc_string_not_oob data offset⟩
  unfold read_osc_string
  rw [findNul_eq_none data (data.length + 1) offset h]

/-- Witness for C9 at the concrete buffer `[1, 1]`, which holds no NUL. -/
theorem c9_unterminated_string_fails_witness :
    read_osc_string [1, 1] 0 = .error .malformed :=
  (c9_unterminated_string_fails [1, 1] 0 (by decide)).1

theorem argStep_isSome (data : List Nat) (t offset : Nat) (v? : Option OSCValue) (o : Nat)
    (h : argStep data t offset = .ok (v?, o)) : v?.isSome = isValueTag t := by
  unfold argStep at h
  split_ifs at h with h1 h2 h3 h4 h5 h6 h7 h8
  · subst h1
    split at h
    · exact absurd h (by simp)
    · simp only [Except.ok.injEq, Prod.mk.injEq] at h
      rw [← h.1]
      simp [isValueTag]
  · subst h2
    split at h
    · exact absurd h (by simp)
    · simp only [Except.ok.injEq, Prod.mk.injEq] at h
      rw [← h.1]
      simp [isValueTag]
  · split at h
    · exact absurd h (by simp)
    · simp only [Except.ok.injEq, Prod.mk.injEq] at h
      rw [← h.1]
      rcases h3 with rfl | rfl <;> simp [isValueTag]
  · subst h4
    split at h
    simp only [Except.ok.injEq, Prod.mk.injEq] at h
    rw [← h.1]
    simp [isValueTag]
  · subst h5
    split at h
    · exact absurd h (by simp)
    · simp only [Except.ok.injEq, Prod.mk.injEq] at h
      rw [← h.1]
      simp [isValueTag]
  · subst h6
    split at h
    · exact absurd h (by simp)
    · simp only [Except.ok.injEq, Prod.mk.injEq] at h
      rw [← h.1]
      simp [isValueTag]
  · subst h7
    split at h
    · exact absurd h (by simp)
    · simp only [Except.ok.injEq, Prod.mk.injEq] at h
      rw [← h.1]
      simp [isValueTag]
  · simp only [Except.ok.injEq, Prod.mk.injEq] at h
    rw [← h.1]
    rcases h8 with rfl | rfl | rfl <;> simp [isValueTag]
  · simp only [Except.ok.injEq, Prod.mk.injEq] at h
    rw [← h.1]
    have hnv : isValueTag t = false := by
      simp only [isValueTag]
      apply decide_eq_false
      rintro (rfl | rfl | rfl | rfl | rfl | rfl | rfl)
      · exact h1 rfl
      · exact h2 rfl
      · exact h3 (Or.inl rfl)
      · exact h3 (Or.inr rfl)
      · exact h4 rfl
      · exact h6 rfl
      · exact h7 rfl
    simp [hnv]

theorem decodeArgs_length (data : List Nat) :
    ∀ (tags : List Nat) (offset : Nat) (args : List OSCValue) (oE : Nat),
      decodeArgs data tags offset = .ok (args, oE) →
      args.length = (tags.filter isValueTag).length := by
  intro tags
  induction tags with
  | nil =>
    intro o args oE h
    simp [decodeArgs] at h
    simp [← h.1]
  | cons t rest ih =>
    intro o args oE h
    unfold decodeArgs at h
    split at h
    · exact absurd h (by simp)
    · rename_i v? o' hs
      split at h
      · exact absurd h (by simp)
      · rename_i args' oE' hr
        simp only [Except.ok.injEq, Prod.mk.injEq] at h
        obtain ⟨h1, _⟩ := h
        have hv := argStep_isSome data t o v? o' hs
        have ha := ih o' args' oE' hr
        rw [← h1]
        rw [List.filter_cons]
        cases hiv : isValueTag t with
        | true =>
          rw [hiv] at hv
          cases v? with
          | none => simp at hv
          | some v => simp [ha]
        | false =>
          rw [hiv] at hv
          cases v? with
          | none => simp [ha]
          | some v => simp at hv

/-- C5 (amended): a successful `Message::decode` produces exactly one
argument per value-carrying tag character ('i','f','s','S','b','t','d') in
the decoded tag string; 'h', 'c', 'r', 'm' and unknown characters
contribute none, so `tags.length = arguments.length + 1` holds only when
every character after the leading comma is value-carrying. -/
theorem c5_arguments_match_value_tags (data : List Nat) (msg : Message)
    (h : Message.decode data = .ok msg) :
    msg.arguments.length = (msg.tags.filter isValueTag).length := by
  unfold Message.decode at h
  split at h
  · exact absurd h (by simp)
  · rename_i addr o1 h1
    split at h
    · exact absurd h (by simp)
    · rename_i tagstr o2 h2
      split at h
      · exact absurd h (by simp)
      · rename_i args oE h3
        simp only [Except.ok.injEq] at h
        rw [← h]
        exact decodeArgs_length data tagstr o2 args oE h3

/-- Witness for C5 at a concrete buffer holding address `/a`, tag string
`,i` and one int32 argument. -/
theorem c5_arguments_match_value_tags_witness :
    (Message.mk [47, 97] [44, 105] [.int32 7]).arguments.length
      = ((Message.mk [47, 97] [44, 105] [.int32 7]).tags.filter isValueTag).length :=
  c5_arguments_match_value_tags [47, 97, 0, 0, 44, 105, 0, 0, 0, 0, 0, 7]
    ⟨[47, 97], [44, 105], [.int32 7]⟩ (by rfl)

/-- Counterexample for C5 as stated: decoding a message whose tag string is
`,c` succeeds with a 2-character tag string and zero arguments, violating
`tags.length = arguments.length + 1`. -/
theorem c5_counterexample :
    Message.decode [47, 97, 0, 0, 44, 99, 0, 0] = .ok ⟨[47, 97], [44, 99], []⟩ ∧
      ¬ (([44, 99] : List Nat).length = ([] : List OSCValue).length + 1) :=
  ⟨rfl, by decide⟩

theorem dispatchOne_fst (cfg : ServerCfg) (d : List Nat) :
    (dispatchOne cfg d).1 = dispatchOk d := by
  unfold dispatchOk dispatchOne
  by_cases hd : d.length = 0
  · simp [hd]
  · simp only [hd, if_false]
    by_cases hb : is_bundle d 0
    · simp only [hb, if_true]
      cases Bundle.decode d <;> simp
    · simp only [hb, Bool.false_eq_true, if_false]
      cases Message.decode d <;> simp

/-- C7 (amended): `process_all` repeats `process_one` until it reports
false — which happens both when the receive yields zero bytes and when a
datagram fails to decode — so it returns the length of the longest prefix
of the pending queue whose datagrams all dispatch successfully; a
malformed datagram ends the loop with the later datagrams still pending. -/
theorem c7_process_all_counts_prefix (cfg : ServerCfg) (q : List (List Nat)) :
    (process_all cfg q).1 = (q.takeWhile dispatchOk).length := by
  induction q with
  | nil => rfl
  | cons d rest ih =>
    unfold process_all
    rw [List.takeWhile_cons]
    cases hd : dispatchOk d with
    | true => simp [dispatchOne_fst, hd, ih]
    | false => simp [dispatchOne_fst, hd]

/-- Counterexample for C7 as stated: with a malformed datagram queued ahead
of a perfectly decodable one, `process_all` returns 0 and stops, leaving
the decodable datagram pending, where the claim requires it to be
processed (count 1). -/
theorem c7_counterexample :
    process_all ⟨true, true⟩ [[1], [47, 97, 0, 0, 44, 0, 0, 0]]
        = (0, [[47, 97, 0, 0, 44, 0, 0, 0]], []) ∧
      dispatchOk [47, 97, 0, 0, 44, 0, 0, 0] = true :=
  ⟨rfl, rfl⟩

theorem getD_replicate_self (n k a : Nat) : (List.replicate n a).getD k a = a := by
  rcases Nat.lt_or_ge k n with hk | hk
  · rw [List.getD_eq_getElem?_getD]
    simp [List.getElem?_replicate, hk]
  · exact List.getD_eq_default _ _ (by simpa using hk)

theorem marker_append_take (r : List Nat) : (markerBytes ++ r).take 8 = markerBytes := by
  rw [List.take_append_of_le_length (by decide)]
  decide

theorem marker_append_is_bundle (r : List Nat) : is_bundle (markerBytes ++ r) 0 = true := by
  simp only [is_bundle, List.drop_zero, marker_append_take, beq_self_eq_true]

theorem marker_append_length (r : List Nat) : (markerBytes ++ r).length = 8 + r.length := by
  rw [List.length_append, show markerBytes.length = 8 from by decide]

theorem marker_replicate_getD (m k : Nat) (hk : 8 ≤ k) :
    (markerBytes ++ List.replicate m 0).getD k 0 = 0 := by
  rw [List.getD_append_right _ _ _ _
    (by rw [show markerBytes.length = 8 from by decide]; exact hk)]
  exact getD_replicate_self _ _ _

theorem marker_replicate_u64 (m : Nat) :
    read_u64_be (markerBytes ++ List.replicate m 0) 8 = 0 := by
  simp only [read_u64_be, read_u32_be]
  rw [marker_replicate_getD m 8 (by omega), marker_replicate_getD m (8+1) (by omega),
    marker_replicate_getD m (8+2) (by omega), marker_replicate_getD m (8+3) (by omega),
    marker_replicate_getD m (8+4) (by omega), marker_replicate_getD m (8+4+1) (by omega),
    marker_replicate_getD m (8+4+2) (by omega), marker_replicate_getD m (8+4+3) (by omega)]

theorem bundleDecodeAux_marker_pad (g m : Nat) (hm : 8 ≤ m) :
    Srv.bundleDecodeAux (g + 2) (markerBytes ++ List.replicate m 0) 8
      = .ok (.mk 0 [] []) := by
  have h16 : 16 ≤ markerBytes.length + m := by
    rw [show markerBytes.length = 8 from by decide]
    omega
  rw [show g + 2 = g + 1 + 1 from rfl]
  simp [Srv.bundleDecodeAux, Srv.bundleLoop, read_osc_timetag,
    marker_append_is_bundle, marker_replicate_u64, h16]

theorem processOne_marker_only :
    Srv.processOne ⟨true, true⟩ Srv.zeroBuffer markerBytes
      = .ok (true, [.bund (.mk 0 [] [])]) := by
  have hrecv : Srv.recv Srv.zeroBuffer markerBytes
      = markerBytes ++ List.replicate 65528 0 := by
    simp only [Srv.recv, Srv.zeroBuffer, BUFFER_MAX_SIZE]
    rw [show markerBytes.length = 8 from by decide, List.drop_replicate,
      show (65536 - 8 : Nat) = 65528 from by norm_num]
  have hbd : Srv.decodeBundle (markerBytes ++ List.replicate 65528 0) 8
      = .ok (.mk 0 [] []) := by
    simp only [Srv.decodeBundle]
    rw [marker_append_length, List.length_replicate]
    exact bundleDecodeAux_marker_pad (8 + 65528) 65528 (by omega)
  simp only [Srv.processOne]
  rw [hrecv, show markerBytes.length = 8 from by decide,
    if_neg (show ¬(8 = 0) by omega), if_pos (marker_append_is_bundle _), hbd]
  rfl

/-- C8 (amended): when a received datagram's leading 8 bytes equal the
bundle marker, `process_one` routes it to `Bundle::decode` and never
invokes the message handler; a decode failure that is actually thrown
(`malformed`) is caught inside `process_one`, invokes no handler, and
reports the packet not processed.  But a malformed remainder does not
guarantee such a failure: the decoders read from the server's 65536-byte
zero-initialized `m_buffer`, so reads past the received byte count see
the buffer's stale/zero bytes and can yield a successful garbage decode
whose bundle handler IS invoked, and a read past the buffer allocation
itself is undefined behaviour the `catch` does not intercept. -/
theorem c8_bundle_marker_never_message_handler (cfg : ServerCfg) (buf d : List Nat)
    (h : d.take 8 = markerBytes) :
    (∀ okv evs, Srv.processOne cfg buf d = .ok (okv, evs) →
        (evs.all fun ev => !ev.isMsg) = true) ∧
      (Srv.decodeBundle (Srv.recv buf d) d.length = .error .malformed →
        Srv.processOne cfg buf d = .ok (false, [])) := by
  have hlen8 : (d.take 8).length = 8 := by rw [h]; decide
  rw [List.length_take] at hlen8
  have hne : ¬ d.length = 0 := by omega
  have hb : is_bundle (Srv.recv buf d) 0 = true := by
    have htake : (Srv.recv buf d).take 8 = markerBytes := by
      show (d ++ _).take 8 = markerBytes
      rw [List.take_append_of_le_length (by omega)]
      exact h
    simp [is_bundle, htake]
  constructor
  · intro okv evs hpo
    simp only [Srv.processOne] at hpo
    rw [if_neg hne, if_pos hb] at hpo
    cases hdec : Srv.decodeBundle (Srv.recv buf d) d.length with
    | ok b =>
      rw [hdec] at hpo
      simp only [Except.ok.injEq, Prod.mk.injEq] at hpo
      rw [← hpo.2]
      cases cfg.hasBundleHandler <;> simp [Dispatch.isMsg]
    | error e =>
      rw [hdec] at hpo
      cases e with
      | malformed =>
        simp only [Except.ok.injEq, Prod.mk.injEq] at hpo
        rw [← hpo.2]
        simp
      | oob => exact absurd hpo (by simp)
      | fuelOut => exact absurd hpo (by simp)
  · intro hm2
    simp [Srv.processOne, hne, hb, hm2]

/-- Witness for C8 (amended) at the marker-only datagram on the zeroed
buffer, whose garbage decode succeeds and dispatches one bundle event. -/
theorem c8_bundle_marker_never_message_handler_witness :
    (([Dispatch.bund (.mk 0 [] [])].all fun ev => !ev.isMsg) = true) :=
  (c8_bundle_marker_never_message_handler ⟨true, true⟩ Srv.zeroBuffer markerBytes
      (by decide)).1 true [.bund (.mk 0 [] [])] processOne_marker_only

/-- Counterexample for C8 as stated: the marker-only 8-byte datagram has a
malformed remainder (its own bytes end before the mandatory time-tag, as
the tight-buffer decode's failure shows), yet the server decodes it from
the zero-initialized buffer into a garbage bundle with time-tag 0, the
bundle handler IS invoked and the packet counts as processed — not
dropped with no handler called, as the claim requires. -/
theorem c8_counterexample :
    Srv.processOne ⟨true, true⟩ Srv.zeroBuffer markerBytes
        = .ok (true, [.bund (.mk 0 [] [])]) ∧
      Bundle.decode markerBytes = .error .oob :=
  ⟨processOne_marker_only, rfl⟩

theorem encode_empty_bundle : Bundle.encode (.mk 1 [] []) = markerBytes := by
  simp [Bundle.encode, encodeBundles, add_osc_string, align4, markerBytes]

/-- C1: contrary to the claim, `Bundle::encode` emits no 8-byte time-tag
after the marker: the empty bundle with time-tag 1 encodes to exactly the
8 marker bytes, and a bundle holding one message encodes to the marker
immediately followed by the length-prefixed message bytes. -/
theorem c1_bundle_encode_omits_timetag :
    Bundle.encode (.mk 1 [] []) = markerBytes ∧
      Bundle.encode (.mk 1 [⟨[47, 97], [44], []⟩] [])
        = markerBytes ++ [0, 0, 0, 8] ++ [47, 97, 0, 0, 44, 0, 0, 0] := by
  refine ⟨encode_empty_bundle, ?_⟩
  simp [Bundle.encode, encodeBundles, encElem, Message.encode, encodeValue,
    add_osc_string, add_osc_u32, align4, markerBytes]

/-- C2: the bundle round-trip fails on the code: decoding the encoding of
the empty bundle hits an out-of-range time-tag read at offset 8 (the
encoder never wrote the time-tag), instead of reproducing the bundle. -/
theorem c2_bundle_roundtrip_fails :
    Bundle.decode (Bundle.encode (.mk 1 [] [])) = .error .oob := by
  rw [encode_empty_bundle]
  rfl

/-- C3: the message round-trip fails on the code for int64 arguments: the
decoder's 'h' arm reads the value and discards it, so the decoded message
keeps the `,h` tag string but loses the argument. -/
theorem c3_int64_argument_dropped :
    Message.decode (Message.encode ⟨[47, 97], [44, 104], [.int64 5]⟩)
        = .ok ⟨[47, 97], [44, 104], []⟩ ∧
      ([] : List OSCValue) ≠ [.int64 5] :=
  ⟨rfl, by decide⟩

/-- C4: contrary to the claim, a truncated fixed-size argument does not
produce a clean failure: decoding address `/a` with tag string `,i` and no
argument bytes makes the unchecked 4-byte int read fall past the end of
the 8-byte buffer (the `oob` outcome, undefined behaviour in the C++),
rather than a checked malformed-packet error. -/
theorem c4_fixed_size_read_past_end :
    Message.decode [47, 97, 0, 0, 44, 105, 0, 0] = .error .oob :=
  rfl

/-- C6: for a blob whose payload length is a multiple of 4 the decoder
overshoots: on the 8-byte encoding of a 4-byte blob (4 + L + align4 L = 8
bytes) a successful decode at aligned offset 0 leaves the cursor at 12,
i.e. it advances 4 + L + 4 bytes, not the 4 + L + align4 L = 8 the claim
(and the encoder) prescribe. -/
theorem c6_blob_cursor_overshoot :
    read_osc_blob (add_osc_blob [1, 2, 3, 4]) 0 = (true, [1, 2, 3, 4], 12) ∧
      (add_osc_blob [1, 2, 3, 4]).length = 8 :=
  ⟨rfl, rfl⟩

end NanoOsc
